import Mathlib

/-!
Verification of the AICoder multi-agent pipeline (architect / coder / tester /
debugger orchestration with a local execution server).

The Python modules relevant to the claims are shallowly embedded below:

* `src/server/local_server.py`   — `LocalServer.run_tests`, `LocalServer.execute_code`,
  `LocalServer.save_code_to_directory`
* `src/agents/agent_tester.py`   — `AgentTester.analyze_test_results`,
  `AgentTester._validate_test_code`, `AgentTester._remove_problematic_tests`
* `src/agents/agent_debugger.py` — `AgentDebugger.analyze_and_fix_combined`
* `src/workflow_orchestrator.py` — `WorkflowOrchestrator.run_complete_workflow`,
  `WorkflowOrchestrator._wait_for_rate_limit`
* `src/utils/mcp_client.py`      — `MCPClient.send_request`
* `src/utils/file_manager.py`    — `FileManager.join_path`, `FileManager.write_file`
* `src/backend/api_usage_tracker.py` — `APIUsageTracker.track_usage`,
  `APIUsageTracker.reset_tracker`, `APIUsageTracker._persist_usage_locked`

External effects (subprocesses, the LLM endpoint, the wall clock, the file
system) are modelled as explicit inputs: each embedded function takes the
outcome of every effectful call it performs and returns the data the Python
code would produce.  Python strings are modelled as `String`, Python `in`
as an executable substring test over `String.data`.
-/

namespace AICoder

/-! ## String helpers: executable embeddings of the Python string operations -/

/-- Boolean list-prefix test (embeds Python `str.startswith` on the
underlying character lists). -/
def strPrefixOf : List Char → List Char → Bool
  | [], _ => true
  | _ :: _, [] => false
  | a :: as, b :: bs => a == b && strPrefixOf as bs

/-- All suffixes of a character list, longest first (scaffolding for the
substring test). -/
def strTails : List Char → List (List Char)
  | [] => [[]]
  | c :: cs => (c :: cs) :: strTails cs

/-- Embeds the Python expression `needle in hay` on strings. -/
def pyIn (needle hay : String) : Bool :=
  (strTails hay.data).any (fun t => strPrefixOf needle.data t)

/-- Embeds Python `str.startswith` on strings. -/
def pyStartsWith (s pre : String) : Bool :=
  strPrefixOf pre.data s.data

/-- Python whitespace (the characters `str.strip()` removes). -/
def isPySpace (c : Char) : Bool :=
  c == ' ' || c == '\t' || c == '\n' || c == '\r' || c == '\x0c' || c == '\x0b'

/-- Embeds Python `str.strip()` (both-ends whitespace trim). -/
def pyStrip (s : String) : String :=
  String.mk (((s.data.dropWhile isPySpace).reverse.dropWhile isPySpace).reverse)

theorem strPrefixOf_self_append (l t : List Char) : strPrefixOf l (l ++ t) = true := by
  induction l with
  | nil => rfl
  | cons a as ih => simp [strPrefixOf, ih]

theorem any_strTails_mid (a pat b : List Char) :
    ((strTails (a ++ (pat ++ b))).any (fun t => strPrefixOf pat t)) = true := by
  induction a with
  | nil =>
    cases h : pat ++ b with
    | nil =>
      rcases List.append_eq_nil.mp h with ⟨hp, hb⟩
      subst hp; subst hb
      simp [strTails, strPrefixOf]
    | cons c cs =>
      have hpre : strPrefixOf pat (c :: cs) = true := by
        rw [← h]; exact strPrefixOf_self_append pat b
      simp [strTails, List.any_cons, hpre]
  | cons x xs ih =>
    have hstep : strTails ((x :: xs) ++ (pat ++ b))
        = ((x :: xs) ++ (pat ++ b)) :: strTails (xs ++ (pat ++ b)) := rfl
    rw [hstep, List.any_cons, ih]
    simp

/-- Substring membership for a string assembled around the needle. -/
theorem pyIn_mid (pre mid post : String) :
    pyIn mid (pre ++ (mid ++ post)) = true := by
  unfold pyIn
  rw [String.data_append, String.data_append]
  exact any_strTails_mid pre.data mid.data post.data

/-! ## `LocalServer` (src/server/local_server.py)

`run_tests` and `execute_code` spawn subprocesses; a subprocess call is
modelled by its outcome.  Result dictionaries are modelled keeping the keys
the claims read (`exit_code` / `return_code`, `passed` / `success`, `stdout`,
`stderr`, `output`, `error`); the bookkeeping keys the claims never read
(`execution_time`, `timestamp`, `json_report`, `test_file`, and `run_tests`'
duplicate `return_code`) are omitted. -/

/-- Outcome of one `subprocess.run` call: normal completion with a return
code and captured streams, `subprocess.TimeoutExpired`, or any other
exception (caught by the generic `except Exception` branch). -/
inductive ProcOutcome where
  | completed (returncode : Int) (stdout stderr : String)
  | timedOut
  | errored (msg : String)

/-- Result dictionary of `LocalServer.run_tests`. -/
structure TestResults where
  exit_code : Int
  passed : Bool
  stdout : String
  stderr : String
  output : String
  error : Option String

/-- Result dictionary built in the normal-completion branch of `run_tests`
(`passed`/`success` are `returncode == 0`, `output` is `stdout + stderr`). -/
def completedResults (rc : Int) (out err : String) : TestResults :=
  { exit_code := rc
    passed := rc == 0
    stdout := out
    stderr := err
    output := out ++ err
    error := none }

/-- Result dictionary built in the `subprocess.TimeoutExpired` branch of
`run_tests`. -/
def timeoutTestResults (timeout : Nat) : TestResults :=
  { exit_code := -1
    passed := false
    stdout := ""
    stderr := "Test execution timeout after " ++ toString timeout ++ " seconds"
    output := "Test execution timeout after " ++ toString timeout ++ " seconds"
    error := some "Test execution timed out" }

/-- Result dictionary built in the generic exception branch of `run_tests`
(`str(e)` is the exception message). -/
def exceptionTestResults (msg : String) : TestResults :=
  { exit_code := -1
    passed := false
    stdout := ""
    stderr := msg
    output := msg
    error := some msg }

/-- Result dictionary returned by `run_tests` when the test file is missing
from the project directory (no subprocess is spawned). -/
def missingTestFileResults (test_file : String) : TestResults :=
  { exit_code := -1
    passed := false
    stdout := ""
    stderr := "Test file '" ++ (test_file ++ "' not found in project directory")
    output := "Test file '" ++ (test_file ++ "' not found in project directory")
    error := some ("Test file not found: " ++ test_file) }

/-- Condition under which `run_tests` re-runs pytest without the JSON-report
plugin (`"No module named" in result.stderr and "json_report" in
result.stderr`). -/
def jsonFallbackTriggered (stderr1 : String) : Bool :=
  pyIn "No module named" stderr1 && pyIn "json_report" stderr1

/-- `LocalServer.run_tests`.  `projectReady` models
`self.current_project_path` being set to an existing directory,
`testFileExists` the `file_exists` check on the joined test-file path;
`run1` is the outcome of the first pytest subprocess and `run2` of the
fallback subprocess (used only when the JSON-report plugin is missing).
The returned `Nat` counts the subprocesses spawned.  A raised `ValueError`
is `Except.error`. -/
def run_tests (projectReady testFileExists : Bool) (test_file : String)
    (timeout : Nat) (run1 run2 : ProcOutcome) : Except String (TestResults × Nat) :=
  if !projectReady then
    .error "Project path not found. Call save_code_to_directory first."
  else if !testFileExists then
    .ok (missingTestFileResults test_file, 0)
  else
    match run1 with
    | .timedOut => .ok (timeoutTestResults timeout, 1)
    | .errored m => .ok (exceptionTestResults m, 1)
    | .completed rc1 out1 err1 =>
      if jsonFallbackTriggered err1 then
        match run2 with
        | .timedOut => .ok (timeoutTestResults timeout, 2)
        | .errored m => .ok (exceptionTestResults m, 2)
        | .completed rc out err => .ok (completedResults rc out err, 2)
      else .ok (completedResults rc1 out1 err1, 1)

/-- Result dictionary of `LocalServer.execute_code` (keys the claims read). -/
structure ExecResults where
  stdout : String
  stderr : String
  return_code : Int
  success : Bool

/-- `LocalServer.execute_code`: runs the entry point in a subprocess;
timeout and generic-exception branches mirror the source.  Raised
`ValueError` / `FileNotFoundError` are `Except.error`. -/
def execute_code (projectReady entryExists : Bool) (entry_point : String)
    (timeout : Nat) (run1 : ProcOutcome) : Except String ExecResults :=
  if !projectReady then
    .error "Project path not found. Call save_code_to_directory first."
  else if !entryExists then
    .error ("Entry point '" ++ (entry_point ++ "' not found in project directory"))
  else
    match run1 with
    | .completed rc out err =>
      .ok { stdout := out, stderr := err, return_code := rc, success := rc == 0 }
    | .timedOut =>
      .ok { stdout := ""
            stderr := "Execution timeout after " ++ toString timeout ++ " seconds"
            return_code := -1
            success := false }
    | .errored m =>
      .ok { stdout := "", stderr := m, return_code := -1, success := false }

/-! ## `AgentTester.analyze_test_results` (src/agents/agent_tester.py) -/

/-- Fields of the analysis dictionary the claims read; the failure list and
JSON-report statistics it also carries are not referenced by any claim. -/
structure TestAnalysis where
  overall_status : String
  exit_code : Int
  has_failures : Bool

/-- `AgentTester.analyze_test_results` on the stored (non-empty) test
results: `overall_status` from `passed`, `has_failures = not passed`. -/
def analyze_test_results (tr : TestResults) : TestAnalysis :=
  { overall_status := if tr.passed then "passed" else "failed"
    exit_code := tr.exit_code
    has_failures := !tr.passed }

/-- Substring membership via an explicit decomposition of the haystack's
character data. -/
theorem pyIn_of_data (needle hay : String) (a b : List Char)
    (h : hay.data = a ++ (needle.data ++ b)) : pyIn needle hay = true := by
  unfold pyIn
  rw [h]
  exact any_strTails_mid a needle.data b

/-- C3: every result dictionary `run_tests` returns has `passed` true exactly
when its `exit_code` is `0` (the timeout, exception and missing-test-file
branches record `exit_code = -1` with `passed = false`), and
`analyze_test_results` reports `has_failures` exactly when `passed` is
false. -/
theorem run_tests_passed_iff_exit_code_zero
    (projectReady testFileExists : Bool) (tf : String) (timeout : Nat)
    (r1 r2 : ProcOutcome) (res : TestResults) (n : Nat)
    (h : run_tests projectReady testFileExists tf timeout r1 r2 = .ok (res, n)) :
    (res.passed = true ↔ res.exit_code = 0) ∧
    ((analyze_test_results res).has_failures = true ↔ res.passed = false) := by
  refine ⟨?_, ?_⟩
  · unfold run_tests at h
    split at h
    · exact Except.noConfusion h
    · split at h
      · simp only [Except.ok.injEq, Prod.mk.injEq] at h
        obtain ⟨hres, -⟩ := h
        subst hres
        simp [missingTestFileResults]
      · cases r1 with
        | timedOut =>
          simp only [Except.ok.injEq, Prod.mk.injEq] at h
          obtain ⟨hres, -⟩ := h
          subst hres
          simp [timeoutTestResults]
        | errored m =>
          simp only [Except.ok.injEq, Prod.mk.injEq] at h
          obtain ⟨hres, -⟩ := h
          subst hres
          simp [exceptionTestResults]
        | completed rc1 out1 err1 =>
          simp only at h
          split at h
          · cases r2 with
            | timedOut =>
              simp only [Except.ok.injEq, Prod.mk.injEq] at h
              obtain ⟨hres, -⟩ := h
              subst hres
              simp [timeoutTestResults]
            | errored m =>
              simp only [Except.ok.injEq, Prod.mk.injEq] at h
              obtain ⟨hres, -⟩ := h
              subst hres
              simp [exceptionTestResults]
            | completed rc out err =>
              simp only [Except.ok.injEq, Prod.mk.injEq] at h
              obtain ⟨hres, -⟩ := h
              subst hres
              simp [completedResults]
          · simp only [Except.ok.injEq, Prod.mk.injEq] at h
            obtain ⟨hres, -⟩ := h
            subst hres
            simp [completedResults]
  · cases hp : res.passed <;> simp [analyze_test_results, hp]

/-- Witness for `run_tests_passed_iff_exit_code_zero` at a concrete passing
run. -/
theorem run_tests_passed_iff_exit_code_zero_witness :
    ((completedResults 0 "1 passed" "").passed = true
      ↔ (completedResults 0 "1 passed" "").exit_code = 0) ∧
    ((analyze_test_results (completedResults 0 "1 passed" "")).has_failures = true
      ↔ (completedResults 0 "1 passed" "").passed = false) :=
  run_tests_passed_iff_exit_code_zero true true "test_main.py" 300
    (.completed 0 "1 passed" "") (.completed 0 "" "")
    (completedResults 0 "1 passed" "") 1 rfl

/-- C7: when the test or execution subprocess exceeds its timeout, both
`run_tests` and `execute_code` return (instead of raising) a result that
records exit code `-1`, `passed`/`success` false, and a stderr message
containing `"timeout"` and the configured timeout value. -/
theorem subprocess_timeout_result_shape
    (tf ep : String) (timeout : Nat) (r2 : ProcOutcome)
    (res : TestResults) (n : Nat) (er : ExecResults) :
    (run_tests true true tf timeout .timedOut r2 = .ok (res, n) →
      res.exit_code = -1 ∧ res.passed = false ∧
      pyIn "timeout" res.stderr = true ∧ pyIn (toString timeout) res.stderr = true) ∧
    (execute_code true true ep timeout .timedOut = .ok er →
      er.return_code = -1 ∧ er.success = false ∧
      pyIn "timeout" er.stderr = true ∧ pyIn (toString timeout) er.stderr = true) := by
  constructor
  · intro h
    have hres : res = timeoutTestResults timeout := by
      simp only [run_tests, Bool.not_true, Bool.false_eq_true, if_false,
        Except.ok.injEq, Prod.mk.injEq] at h
      exact h.1.symm
    subst hres
    refine ⟨rfl, rfl, ?_, ?_⟩
    · refine pyIn_of_data _ _ "Test execution ".data
        (" after ".data ++ ((toString timeout).data ++ " seconds".data)) ?_
      show ((("Test execution timeout after " ++ toString timeout) ++ " seconds")).data = _
      rw [String.data_append, String.data_append]
      have : ("Test execution timeout after ").data
          = "Test execution ".data ++ ("timeout".data ++ " after ".data) := by rfl
      rw [this]
      simp [List.append_assoc]
    · refine pyIn_of_data _ _ "Test execution timeout after ".data " seconds".data ?_
      show ((("Test execution timeout after " ++ toString timeout) ++ " seconds")).data = _
      rw [String.data_append, String.data_append]
      simp [List.append_assoc]
  · intro h
    have her : er = { stdout := ""
                      stderr := "Execution timeout after " ++ toString timeout ++ " seconds"
                      return_code := -1
                      success := false } := by
      simp only [execute_code, Bool.not_true, Bool.false_eq_true, if_false,
        Except.ok.injEq] at h
      exact h.symm
    subst her
    refine ⟨rfl, rfl, ?_, ?_⟩
    · refine pyIn_of_data _ _ "Execution ".data
        (" after ".data ++ ((toString timeout).data ++ " seconds".data)) ?_
      show ((("Execution timeout after " ++ toString timeout) ++ " seconds")).data = _
      rw [String.data_append, String.data_append]
      have : ("Execution timeout after ").data
          = "Execution ".data ++ ("timeout".data ++ " after ".data) := by rfl
      rw [this]
      simp [List.append_assoc]
    · refine pyIn_of_data _ _ "Execution timeout after ".data " seconds".data ?_
      show ((("Execution timeout after " ++ toString timeout) ++ " seconds")).data = _
      rw [String.data_append, String.data_append]
      simp [List.append_assoc]

/-- Witness for `subprocess_timeout_result_shape` at the default test timeout
of 300 seconds (`run_tests`) and the default execution timeout of 30 seconds
(`execute_code`). -/
theorem subprocess_timeout_result_shape_witness :
    ((timeoutTestResults 300).exit_code = -1 ∧ (timeoutTestResults 300).passed = false ∧
      pyIn "timeout" (timeoutTestResults 300).stderr = true ∧
      pyIn (toString 300) (timeoutTestResults 300).stderr = true) ∧
    (({ stdout := ""
        stderr := "Execution timeout after " ++ toString 30 ++ " seconds"
        return_code := -1
        success := false } : ExecResults).return_code = -1 ∧
      ({ stdout := ""
         stderr := "Execution timeout after " ++ toString 30 ++ " seconds"
         return_code := -1
         success := false } : ExecResults).success = false ∧
      pyIn "timeout" ("Execution timeout after " ++ toString 30 ++ " seconds") = true ∧
      pyIn (toString 30) ("Execution timeout after " ++ toString 30 ++ " seconds") = true) :=
  ⟨(subprocess_timeout_result_shape "test_main.py" "main.py" 300 (.completed 0 "" "")
      (timeoutTestResults 300) 1
      { stdout := ""
        stderr := "Execution timeout after " ++ toString 300 ++ " seconds"
        return_code := -1
        success := false }).1 rfl,
   (subprocess_timeout_result_shape "test_main.py" "main.py" 30 (.completed 0 "" "")
      (timeoutTestResults 30) 1
      { stdout := ""
        stderr := "Execution timeout after " ++ toString 30 ++ " seconds"
        return_code := -1
        success := false }).2 rfl⟩

/-- C10: when the project directory exists but the named test file is absent,
`run_tests` returns a structured result (spawning no subprocess: the count is
`0`) with `exit_code = -1`, `passed = false`, and stderr/error text naming the
missing test file. -/
theorem run_tests_missing_test_file (tf : String) (timeout : Nat) (r1 r2 : ProcOutcome) :
    run_tests true false tf timeout r1 r2 = .ok (missingTestFileResults tf, 0) ∧
    (missingTestFileResults tf).exit_code = -1 ∧
    (missingTestFileResults tf).passed = false ∧
    pyIn tf (missingTestFileResults tf).stderr = true ∧
    pyIn tf ((missingTestFileResults tf).error.getD "") = true := by
  refine ⟨rfl, rfl, rfl, ?_, ?_⟩
  · exact pyIn_mid "Test file '" tf "' not found in project directory"
  · refine pyIn_of_data _ _ "Test file not found: ".data [] ?_
    show ("Test file not found: " ++ tf).data = _
    rw [String.data_append]
    simp

/-! ## `AgentDebugger.analyze_and_fix_combined` (src/agents/agent_debugger.py)

One iteration of the internal retry loop performs an LLM call, parses the
response, applies the fixes, saves them and reruns the tests.  The loop body
is modelled by the outcome one iteration observes; the attempt dictionaries
appended to `all_attempts` keep the keys the claims read (`attempt`,
`test_passed`, `error`, `fixed_files`). -/

/-- What one iteration of the debugger's retry loop observes: the `try` body
raised (LLM call, parsing, saving or test run failed), the response parsed
but contained no `FILE_START` block, or fixes were applied and the tests
rerun with the given result. -/
inductive AttemptOutcome where
  | exn (msg : String)
  | noFiles
  | fixed (files : List String) (test_passed : Bool)

/-- One entry of the `all_attempts` list. -/
structure AttemptRecord where
  attempt : Nat
  test_passed : Bool
  error : Option String
  fixed_files : List String

/-- Return dictionary of `analyze_and_fix_combined` (keys the claims read). -/
structure DebugResult where
  success : Bool
  attempts : List AttemptRecord

/-- The internal retry loop of `analyze_and_fix_combined`
(`for attempt in range(1, self.max_fix_iterations + 1)`): `fuel` is the
number of remaining iterations, `k` the current attempt number, `acc` the
`all_attempts` list built so far. -/
def debugLoop (outcomes : Nat → AttemptOutcome) : Nat → Nat → List AttemptRecord → DebugResult
  | 0, _, acc => { success := false, attempts := acc }
  | fuel + 1, k, acc =>
    match outcomes k with
    | .exn msg =>
      debugLoop outcomes fuel (k + 1)
        (acc ++ [{ attempt := k, test_passed := false, error := some msg, fixed_files := [] }])
    | .noFiles =>
      debugLoop outcomes fuel (k + 1)
        (acc ++ [{ attempt := k, test_passed := false,
                   error := some "No fixed files in response", fixed_files := [] }])
    | .fixed files passed =>
      let acc2 := acc ++ [{ attempt := k, test_passed := passed, error := none,
                            fixed_files := files }]
      if passed then { success := true, attempts := acc2 }
      else debugLoop outcomes fuel (k + 1) acc2

/-- `AgentDebugger.analyze_and_fix_combined`: raises a `ValueError` when no
test analysis was received, returns immediately (zero attempts) when the
stored analysis reports `passed`, and otherwise runs the retry loop for at
most `max_fix_iterations` attempts numbered from 1. -/
def analyze_and_fix_combined (max_fix_iterations : Nat) (analysisStatus : Option String)
    (outcomes : Nat → AttemptOutcome) : Except String DebugResult :=
  match analysisStatus with
  | none => .error "No test analysis available. Call receive_code_and_results() first."
  | some st =>
    if st = "passed" then .ok { success := true, attempts := [] }
    else .ok (debugLoop outcomes max_fix_iterations 1 [])

theorem debugLoop_length_le (outcomes : Nat → AttemptOutcome) :
    ∀ (fuel k : Nat) (acc : List AttemptRecord),
      (debugLoop outcomes fuel k acc).attempts.length ≤ acc.length + fuel := by
  intro fuel
  induction fuel with
  | zero => intro k acc; simp [debugLoop]
  | succ n ih =>
    intro k acc
    unfold debugLoop
    cases outcomes k with
    | exn msg =>
      calc (debugLoop outcomes n (k + 1) (acc ++ [_])).attempts.length
          ≤ (acc ++ [_]).length + n := ih (k + 1) _
        _ ≤ acc.length + (n + 1) := by simp [List.length_append]; omega
    | noFiles =>
      calc (debugLoop outcomes n (k + 1) (acc ++ [_])).attempts.length
          ≤ (acc ++ [_]).length + n := ih (k + 1) _
        _ ≤ acc.length + (n + 1) := by simp [List.length_append]; omega
    | fixed files passed =>
      cases passed with
      | true => simp [List.length_append]
      | false =>
        simp only [Bool.false_eq_true, if_false]
        calc (debugLoop outcomes n (k + 1) (acc ++ [_])).attempts.length
            ≤ (acc ++ [_]).length + n := ih (k + 1) _
          _ ≤ acc.length + (n + 1) := by simp [List.length_append]; omega

theorem debugLoop_success_iff_last (outcomes : Nat → AttemptOutcome) :
    ∀ (fuel k : Nat) (acc : List AttemptRecord),
      acc.getLast?.map AttemptRecord.test_passed ≠ some true →
      ((debugLoop outcomes fuel k acc).success = true ↔
        (debugLoop outcomes fuel k acc).attempts.getLast?.map AttemptRecord.test_passed
          = some true) := by
  intro fuel
  induction fuel with
  | zero =>
    intro k acc hacc
    simp only [debugLoop]
    constructor
    · intro hfalse; exact absurd hfalse (by simp)
    · intro hlast; exact absurd hlast hacc
  | succ n ih =>
    intro k acc hacc
    unfold debugLoop
    cases outcomes k with
    | exn msg => exact ih (k + 1) _ (by simp [List.getLast?_concat])
    | noFiles => exact ih (k + 1) _ (by simp [List.getLast?_concat])
    | fixed files passed =>
      cases passed with
      | true => simp [List.getLast?_concat]
      | false =>
        simp only [Bool.false_eq_true, if_false]
        exact ih (k + 1) _ (by simp [List.getLast?_concat])

/-- C2: when `analyze_and_fix_combined` runs on a failing test analysis, the
returned `DebugResult` records at most `max_fix_iterations` attempts
(`MAX_DEBUG_ATTEMPTS`, default 5), and `success` is true exactly when the
last recorded attempt has `test_passed = true`. -/
theorem analyze_and_fix_combined_attempts_invariant
    (max_fix_iterations : Nat) (outcomes : Nat → AttemptOutcome) (dr : DebugResult)
    (h : analyze_and_fix_combined max_fix_iterations (some "failed") outcomes = .ok dr) :
    dr.attempts.length ≤ max_fix_iterations ∧
    (dr.success = true ↔
      dr.attempts.getLast?.map AttemptRecord.test_passed = some true) := by
  have hdr : dr = debugLoop outcomes max_fix_iterations 1 [] := by
    simp only [analyze_and_fix_combined, String.reduceEq, if_false,
      Except.ok.injEq] at h
    exact h.symm
  subst hdr
  constructor
  · simpa using debugLoop_length_le outcomes max_fix_iterations 1 []
  · exact debugLoop_success_iff_last outcomes max_fix_iterations 1 [] (by simp)

/-- Witness for `analyze_and_fix_combined_attempts_invariant`: a first-attempt
fix, with the default budget of five attempts. -/
theorem analyze_and_fix_combined_attempts_invariant_witness :
    (debugLoop (fun _ => .fixed ["main.py"] true) 5 1 []).attempts.length ≤ 5 ∧
    ((debugLoop (fun _ => .fixed ["main.py"] true) 5 1 []).success = true ↔
      (debugLoop (fun _ => .fixed ["main.py"] true) 5 1
          []).attempts.getLast?.map AttemptRecord.test_passed = some true) :=
  analyze_and_fix_combined_attempts_invariant 5 (fun _ => .fixed ["main.py"] true)
    (debugLoop (fun _ => .fixed ["main.py"] true) 5 1 []) rfl

/-! ## `WorkflowOrchestrator.run_complete_workflow` (src/workflow_orchestrator.py)

The workflow's effectful steps either return a value or raise; the
orchestrator's single `try/except Exception` block is embedded by pattern
matching on each step in program order.  The result dictionary keeps the
keys the claims read; `saved_files`, `test_file_path`, `fixed_code`,
`debug_attempts` and `final_test_results` are omitted. -/

/-- A workflow step that either returns normally or raises an exception with
message `str(e)`. -/
inductive StepOutcome (α : Type) where
  | ok (val : α)
  | raises (msg : String)

/-- The outcomes of the effectful steps of one `run_complete_workflow` run,
in program order. -/
structure WorkflowEnv where
  architect : StepOutcome String
  coder : StepOutcome (List (String × String))
  save : StepOutcome Unit
  testerGenerate : StepOutcome Unit
  runTests : StepOutcome TestResults
  debugger : StepOutcome DebugResult
  cleanup : StepOutcome Unit

/-- The orchestrator's result dictionary (keys the claims read). -/
structure RunResult where
  final_status : String
  architectural_plan : Option String
  code_package : Option (List (String × String))
  test_results : Option TestResults
  debugger_fixed : Bool
  debug_result : Option DebugResult
  error : Option String
  traceback : Option String

/-- The `except Exception` handler: sets `final_status = "error"` and stores
the message and a traceback (here `traceback.format_exc()` is modelled by
the exception message) on top of the partial result built so far. -/
def errorResult (r : RunResult) (msg : String) : RunResult :=
  { r with final_status := "error", error := some msg, traceback := some msg }

/-- `WorkflowOrchestrator.run_complete_workflow`: the result starts as
`failed` with empty artifacts; each step fills its artifact in, any raise
lands in `errorResult`; on passing tests the status is `success`, otherwise
the debugger runs and the status follows `debug_result["success"]`;
`cleanup_workspace` runs last inside the same `try`. -/
def run_complete_workflow (env : WorkflowEnv) : RunResult :=
  let r0 : RunResult :=
    { final_status := "failed", architectural_plan := none, code_package := none
      test_results := none, debugger_fixed := false, debug_result := none
      error := none, traceback := none }
  match env.architect with
  | .raises m => errorResult r0 m
  | .ok plan =>
    let r1 := { r0 with architectural_plan := some plan }
    match env.coder with
    | .raises m => errorResult r1 m
    | .ok code =>
      let r2 := { r1 with code_package := some code }
      match env.save with
      | .raises m => errorResult r2 m
      | .ok _ =>
        match env.testerGenerate with
        | .raises m => errorResult r2 m
        | .ok _ =>
          match env.runTests with
          | .raises m => errorResult r2 m
          | .ok tr =>
            let r3 := { r2 with test_results := some tr }
            if tr.passed then
              let r4 := { r3 with final_status := "success" }
              match env.cleanup with
              | .raises m => errorResult r4 m
              | .ok _ => r4
            else
              match env.debugger with
              | .raises m => errorResult r3 m
              | .ok dr =>
                let r5 := { r3 with debugger_fixed := true, debug_result := some dr
                                    final_status := if dr.success then "success" else "failed" }
                match env.cleanup with
                | .raises m => errorResult r5 m
                | .ok _ => r5

/-- The first exception actually raised along the executed path of
`run_complete_workflow` (and hence caught by its handler), if any. -/
def caughtException (env : WorkflowEnv) : Option String :=
  match env.architect with
  | .raises m => some m
  | .ok _ =>
    match env.coder with
    | .raises m => some m
    | .ok _ =>
      match env.save with
      | .raises m => some m
      | .ok _ =>
        match env.testerGenerate with
        | .raises m => some m
        | .ok _ =>
          match env.runTests with
          | .raises m => some m
          | .ok tr =>
            if tr.passed then
              match env.cleanup with
              | .raises m => some m
              | .ok _ => none
            else
              match env.debugger with
              | .raises m => some m
              | .ok _ =>
                match env.cleanup with
                | .raises m => some m
                | .ok _ => none

/-- C1: `run_complete_workflow` always returns a result (it is a total
function of the step outcomes) whose `final_status` is one of `success`,
`failed`, `error`; when any stage raises, the result records
`final_status = "error"`, the error message and a traceback, and retains
every artifact produced before the failure. -/
theorem run_complete_workflow_never_raises (env : WorkflowEnv) :
    ((run_complete_workflow env).final_status = "success" ∨
      (run_complete_workflow env).final_status = "failed" ∨
      (run_complete_workflow env).final_status = "error") ∧
    (∀ m, caughtException env = some m →
      (run_complete_workflow env).final_status = "error" ∧
      (run_complete_workflow env).error = some m ∧
      (run_complete_workflow env).traceback.isSome = true) ∧
    (∀ p, env.architect = .ok p →
      (run_complete_workflow env).architectural_plan = some p) ∧
    (∀ p c, env.architect = .ok p → env.coder = .ok c →
      (run_complete_workflow env).code_package = some c) ∧
    (∀ p c tr, env.architect = .ok p → env.coder = .ok c → env.save = .ok () →
      env.testerGenerate = .ok () → env.runTests = .ok tr →
      (run_complete_workflow env).test_results = some tr) := by
  obtain ⟨arch, coder, save, tgen, rt, dbg, cl⟩ := env
  cases arch with
  | raises m => simp [run_complete_workflow, caughtException, errorResult]
  | ok plan =>
    cases coder with
    | raises m => simp [run_complete_workflow, caughtException, errorResult]
    | ok code =>
      cases save with
      | raises m => simp [run_complete_workflow, caughtException, errorResult]
      | ok u1 =>
        cases tgen with
        | raises m => simp [run_complete_workflow, caughtException, errorResult]
        | ok u2 =>
          cases rt with
          | raises m => simp [run_complete_workflow, caughtException, errorResult]
          | ok tr =>
            cases htr : tr.passed with
            | true =>
              cases cl with
              | raises m =>
                simp [run_complete_workflow, caughtException, errorResult, htr]
              | ok u3 =>
                simp [run_complete_workflow, caughtException, errorResult, htr]
            | false =>
              cases dbg with
              | raises m =>
                simp [run_complete_workflow, caughtException, errorResult, htr]
              | ok dr =>
                cases cl with
                | raises m =>
                  cases hds : dr.success <;>
                    simp [run_complete_workflow, caughtException, errorResult, htr, hds]
                | ok u3 =>
                  cases hds : dr.success <;>
                    simp [run_complete_workflow, caughtException, errorResult, htr, hds]

/-- A concrete workflow run whose cleanup step raises after the tests
passed. -/
def envCleanupRaises : WorkflowEnv :=
  { architect := .ok "plan"
    coder := .ok [("main.py", "say hello")]
    save := .ok ()
    testerGenerate := .ok ()
    runTests := .ok (completedResults 0 "2 passed" "")
    debugger := .ok { success := true, attempts := [] }
    cleanup := .raises "disk full" }

/-- Witness for `run_complete_workflow_never_raises` at `envCleanupRaises`. -/
theorem run_complete_workflow_never_raises_witness :
    ((run_complete_workflow envCleanupRaises).final_status = "error" ∧
      (run_complete_workflow envCleanupRaises).error = some "disk full" ∧
      (run_complete_workflow envCleanupRaises).traceback.isSome = true) ∧
    (run_complete_workflow envCleanupRaises).architectural_plan = some "plan" ∧
    (run_complete_workflow envCleanupRaises).code_package = some [("main.py", "say hello")] ∧
    (run_complete_workflow envCleanupRaises).test_results
      = some (completedResults 0 "2 passed" "") :=
  ⟨(run_complete_workflow_never_raises envCleanupRaises).2.1 "disk full" rfl,
   (run_complete_workflow_never_raises envCleanupRaises).2.2.1 "plan" rfl,
   (run_complete_workflow_never_raises envCleanupRaises).2.2.2.1 "plan"
     [("main.py", "say hello")] rfl rfl,
   (run_complete_workflow_never_raises envCleanupRaises).2.2.2.2 "plan"
     [("main.py", "say hello")] (completedResults 0 "2 passed" "") rfl rfl rfl rfl rfl⟩

/-! ## `WorkflowOrchestrator._wait_for_rate_limit` and the call schedule

The wall clock is modelled as an integer number of seconds that advances
only through `time.sleep` and the stated processing durations.  A rate-limit
state carries the clock and `self.last_request_time` (initially `0`). -/

/-- `REQUEST_DELAY` (6 seconds, 10 requests per minute). -/
def REQUEST_DELAY : Int := 6

/-- The orchestrator's clock state: current wall time and
`self.last_request_time`. -/
structure RateState where
  now : Int
  last : Int

/-- `WorkflowOrchestrator._wait_for_rate_limit`: when rate limiting is
enabled, sleep until `REQUEST_DELAY` has elapsed since `last_request_time`,
then set `last_request_time` to the current time. -/
def wait_for_rate_limit (enable_rate_limiting : Bool) (s : RateState) : RateState :=
  match enable_rate_limiting with
  | false => s
  | true =>
    let since := s.now - s.last
    let now2 := if since < REQUEST_DELAY then s.now + (REQUEST_DELAY - since) else s.now
    { now := now2, last := now2 }

/-- Start times of the debugger's second and later LLM calls: inside
`analyze_and_fix_combined` no `_wait_for_rate_limit` is executed, so attempt
`i + 1` starts exactly when attempt `i`'s processing (LLM round trip, file
save, test run — duration `d` seconds) ends. -/
def debugAttemptStarts (t : Int) : List Nat → List Int
  | [] => []
  | d :: ds => (t + d) :: debugAttemptStarts (t + d) ds

/-- Start times of the four orchestrator-gated LLM calls (architect, coder,
tester, first debugger attempt), each preceded by `_wait_for_rate_limit`;
`dArch`, `dCoder`, `dTester` are the processing durations between them. -/
def gateTimes (enable : Bool) (t0 : Int) (dArch dCoder dTester : Nat) :
    Int × Int × Int × Int :=
  let s1 := wait_for_rate_limit enable { now := t0, last := 0 }
  let s2 := wait_for_rate_limit enable { now := s1.now + dArch, last := s1.last }
  let s3 := wait_for_rate_limit enable { now := s2.now + dCoder, last := s2.last }
  let s4 := wait_for_rate_limit enable { now := s3.now + dTester, last := s3.last }
  (s1.now, s2.now, s3.now, s4.now)

/-- Start times of every LLM call in one `run_complete_workflow` run along
the failing-tests path with `1 + interAttempt.length` debugger attempts:
the four gated calls, then the ungated further debugger attempts. -/
def llmCallStarts (enable : Bool) (t0 : Int) (dArch dCoder dTester : Nat)
    (interAttempt : List Nat) : List Int :=
  let g := gateTimes enable t0 dArch dCoder dTester
  [g.1, g.2.1, g.2.2.1, g.2.2.2] ++ debugAttemptStarts g.2.2.2 interAttempt

/-- C4 fails on the code: with rate limiting enabled and all processing
durations zero, a failing run with two debugger attempts issues its fourth
and fifth LLM calls at the same instant — the debugger's internal retry
loop never calls `_wait_for_rate_limit`, so consecutive LLM calls are not
always `REQUEST_DELAY` apart. -/
theorem debugger_attempts_violate_rate_limit :
    llmCallStarts true 0 0 0 0 [0] = [6, 12, 18, 24, 24] ∧
    ¬ List.Chain' (fun a b : Int => a + REQUEST_DELAY ≤ b)
        (llmCallStarts true 0 0 0 0 [0]) := by
  constructor
  · rfl
  · intro hchain
    have h24 : (24 : Int) + REQUEST_DELAY ≤ 24 := by
      have := hchain
      rw [show llmCallStarts true 0 0 0 0 [0] = [6, 12, 18, 24, 24] from rfl] at this
      simp [List.chain'_cons] at this
      omega
    simp [REQUEST_DELAY] at h24

theorem wait_last_eq_now (s : RateState) :
    (wait_for_rate_limit true s).last = (wait_for_rate_limit true s).now := by
  simp only [wait_for_rate_limit]

theorem wait_gap (c : Int) (d : Nat) :
    c + REQUEST_DELAY ≤ (wait_for_rate_limit true { now := c + d, last := c }).now := by
  show c + REQUEST_DELAY ≤
    (let since := (c + (d : Int)) - c
     let now2 := if since < REQUEST_DELAY then (c + (d : Int)) + (REQUEST_DELAY - since)
                 else c + (d : Int)
     ({ now := now2, last := now2 } : RateState)).now
  simp only [REQUEST_DELAY]
  split <;> omega

/-- The consecutive differences of a list of times. -/
def timeGaps : List Int → List Int
  | x :: y :: rest => (y - x) :: timeGaps (y :: rest)
  | _ => []

theorem timeGaps_debugAttemptStarts (ds : List Nat) :
    ∀ t : Int, timeGaps (t :: debugAttemptStarts t ds) = ds.map (fun d => (d : Int)) := by
  induction ds with
  | nil => intro t; rfl
  | cons d ds ih =>
    intro t
    simp only [debugAttemptStarts, timeGaps, ih (t + d), List.map_cons]
    congr 1
    show t + (d : Int) - t = (d : Int)
    omega

/-- C4 amended: with rate limiting enabled, the four orchestrator-gated LLM
calls (architect, coder, tester, first debugger attempt) do keep at least
`REQUEST_DELAY` between consecutive starts, for every clock origin and all
processing durations; but the debugger's second and later attempts start
exactly when the previous attempt's processing ends (gap = processing
duration), with no enforced minimum. -/
theorem rate_limit_gated_calls_only (t0 : Int) (dArch dCoder dTester : Nat)
    (interAttempt : List Nat) :
    List.Chain' (fun a b : Int => a + REQUEST_DELAY ≤ b)
      ((llmCallStarts true t0 dArch dCoder dTester interAttempt).take 4) ∧
    timeGaps ((llmCallStarts true t0 dArch dCoder dTester interAttempt).drop 3)
      = interAttempt.map (fun d => (d : Int)) := by
  constructor
  · have h12 : (gateTimes true t0 dArch dCoder dTester).1 + REQUEST_DELAY
        ≤ (gateTimes true t0 dArch dCoder dTester).2.1 := by
      unfold gateTimes
      simp only
      rw [wait_last_eq_now]
      exact wait_gap _ dArch
    have h23 : (gateTimes true t0 dArch dCoder dTester).2.1 + REQUEST_DELAY
        ≤ (gateTimes true t0 dArch dCoder dTester).2.2.1 := by
      unfold gateTimes
      simp only
      rw [wait_last_eq_now]
      exact wait_gap _ dCoder
    have h34 : (gateTimes true t0 dArch dCoder dTester).2.2.1 + REQUEST_DELAY
        ≤ (gateTimes true t0 dArch dCoder dTester).2.2.2 := by
      unfold gateTimes
      simp only
      rw [wait_last_eq_now]
      exact wait_gap _ dTester
    simp only [llmCallStarts, List.take, List.chain'_cons, List.chain'_singleton,
      and_true]
    exact ⟨h12, h23, h34⟩
  · simp only [llmCallStarts]
    exact timeGaps_debugAttemptStarts interAttempt _

/-! ## `MCPClient.send_request` (src/utils/mcp_client.py)

The retry loop `for attempt in range(max_retries + 1)` is embedded with the
outcome of each HTTP POST given as input.  The model returns the result (the
parsed response body, or the exception raised), the number of attempts made,
and the list of `time.sleep` delays performed. -/

/-- Outcome of one HTTP POST: a response with a status code and (for
non-error statuses) the JSON body — `none` models `response.json()`
raising — or a timeout, or another `requests` exception. -/
inductive HttpAttempt where
  | response (status : Nat) (body : Option String)
  | timeout
  | connError (msg : String)

/-- The exception `send_request` raises, when it does. -/
inductive SendError where
  | httpError (status : Nat)
  | timeoutError
  | jsonDecodeError
  | requestError (msg : String)
  | exhausted
deriving DecidableEq

/-- `response.raise_for_status()` raises exactly for 4xx and 5xx codes. -/
def raiseForStatusFails (status : Nat) : Bool :=
  400 ≤ status && status < 600

/-- The retry loop of `send_request`: `fuel` counts the remaining loop
iterations (initially `max_retries + 1`), `k` the current attempt index,
`backoff` the current backoff delay, `sleeps` the sleeps performed so far.
A 429 response or a timeout on attempt `k < max_retries` sleeps `backoff`,
doubles it and retries; a 429 or timeout on the last attempt raises; any
other HTTP error, a JSON decode failure, or another request exception is
raised immediately. -/
def sendLoop (outcomes : Nat → HttpAttempt) (max_retries : Nat) :
    Nat → Nat → Nat → List Nat → Except SendError String × Nat × List Nat
  | 0, k, _, sleeps => (.error .exhausted, k, sleeps)
  | fuel + 1, k, backoff, sleeps =>
    match outcomes k with
    | .timeout =>
      if k < max_retries then
        sendLoop outcomes max_retries fuel (k + 1) (backoff * 2) (sleeps ++ [backoff])
      else (.error .timeoutError, k + 1, sleeps)
    | .connError m => (.error (.requestError m), k + 1, sleeps)
    | .response status body =>
      if status = 429 then
        if k < max_retries then
          sendLoop outcomes max_retries fuel (k + 1) (backoff * 2) (sleeps ++ [backoff])
        else (.error (.httpError 429), k + 1, sleeps)
      else if raiseForStatusFails status then (.error (.httpError status), k + 1, sleeps)
      else
        match body with
        | some b => (.ok b, k + 1, sleeps)
        | none => (.error .jsonDecodeError, k + 1, sleeps)

/-- `MCPClient.send_request` with its retry parameters (defaults
`max_retries = 5`, `initial_backoff = 2` seconds; the float backoff stays
integral since it only doubles). -/
def send_request (outcomes : Nat → HttpAttempt) (max_retries initial_backoff : Nat) :
    Except SendError String × Nat × List Nat :=
  sendLoop outcomes max_retries (max_retries + 1) 0 initial_backoff []

/-- Attempt outcomes the loop retries: HTTP 429 and timeouts. -/
def retryable : HttpAttempt → Bool
  | .response status _ => status == 429
  | .timeout => true
  | .connError _ => false

/-- The result produced at the attempt on which the loop stops (either a
non-retryable outcome, or a retryable one on the final attempt). -/
def stopResult : HttpAttempt → Except SendError String
  | .response status body =>
    if raiseForStatusFails status then .error (.httpError status)
    else
      match body with
      | some b => .ok b
      | none => .error .jsonDecodeError
  | .timeout => .error .timeoutError
  | .connError m => .error (.requestError m)

/-- C5 fails on the code: the loop runs `range(max_retries + 1)`, so with the
default `max_retries = 5` a call hit by five consecutive 429 responses is
attempted a sixth time and still succeeds — the request is attempted up to
`MAX_RETRIES + 1` times, not `MAX_RETRIES` times as claimed (the delays do
start at 2 and double). -/
theorem send_request_makes_six_attempts :
    send_request (fun k => if k < 5 then .response 429 none else .response 200 (some "data")) 5 2
      = (.ok "data", 6, [2, 4, 8, 16, 32]) ∧ ¬ (6 ≤ 5) :=
  ⟨rfl, by omega⟩

theorem sendLoop_characterize (outcomes : Nat → HttpAttempt) (max_retries : Nat) :
    ∀ (n k backoff : Nat) (sleeps : List Nat),
      k + n ≤ max_retries →
      (∀ j, k ≤ j → j < k + n → retryable (outcomes j) = true) →
      (retryable (outcomes (k + n)) = false ∨ k + n = max_retries) →
      sendLoop outcomes max_retries (max_retries + 1 - k) k backoff sleeps
        = (stopResult (outcomes (k + n)), (k + n) + 1,
           sleeps ++ (List.range n).map (fun i => backoff * 2 ^ i)) := by
  intro n
  induction n with
  | zero =>
    intro k backoff sleeps hk _ hstop
    obtain ⟨f, hf⟩ : ∃ f, max_retries + 1 - k = f + 1 := ⟨max_retries - k, by omega⟩
    rw [hf]
    simp only [Nat.add_zero] at hstop ⊢
    unfold sendLoop
    cases ho : outcomes k with
    | timeout =>
      have : ¬ k < max_retries := by
        rcases hstop with hs | hs
        · rw [ho] at hs; simp [retryable] at hs
        · omega
      simp [this, stopResult, ho]
    | connError m => simp [stopResult, ho]
    | response status body =>
      by_cases h429 : status = 429
      · subst h429
        have : ¬ k < max_retries := by
          rcases hstop with hs | hs
          · rw [ho] at hs; simp [retryable] at hs
          · omega
        simp [this, stopResult, ho, raiseForStatusFails]
      · simp only [h429, if_false]
        by_cases hrfs : raiseForStatusFails status = true
        · simp [hrfs, stopResult, ho, h429]
        · simp only [Bool.not_eq_true] at hrfs
          cases body with
          | some b => simp [hrfs, stopResult, ho, h429]
          | none => simp [hrfs, stopResult, ho, h429]
  | succ n ih =>
    intro k backoff sleeps hk hpre hstop
    have hklt : k < max_retries := by omega
    obtain ⟨f, hf⟩ : ∃ f, max_retries + 1 - k = f + 1 := ⟨max_retries - k, by omega⟩
    have hf2 : f = max_retries + 1 - (k + 1) := by omega
    have hretry : retryable (outcomes k) = true := hpre k le_rfl (by omega)
    have hrec : sendLoop outcomes max_retries (max_retries + 1 - (k + 1)) (k + 1)
        (backoff * 2) (sleeps ++ [backoff])
        = (stopResult (outcomes ((k + 1) + n)), ((k + 1) + n) + 1,
           (sleeps ++ [backoff]) ++ (List.range n).map (fun i => backoff * 2 * 2 ^ i)) := by
      refine ih (k + 1) (backoff * 2) (sleeps ++ [backoff]) (by omega) ?_ ?_
      · intro j hj1 hj2; exact hpre j (by omega) (by omega)
      · have : (k + 1) + n = k + (n + 1) := by omega
        rw [this]; exact hstop
    have hshift : (k + 1) + n = k + (n + 1) := by omega
    have hsleeps : (sleeps ++ [backoff]) ++ (List.range n).map (fun i => backoff * 2 * 2 ^ i)
        = sleeps ++ (List.range (n + 1)).map (fun i => backoff * 2 ^ i) := by
      rw [List.append_assoc]
      congr 1
      rw [List.range_succ_eq_map]
      simp only [List.map_cons, List.map_map, pow_zero, Nat.mul_one,
        List.singleton_append]
      congr 1
      apply List.map_congr_left
      intro i _
      simp only [Function.comp_apply, pow_succ]
      ring
    rw [hf, hf2] at *
    unfold sendLoop
    cases ho : outcomes k with
    | timeout =>
      simp only [hklt, if_true]
      rw [← hf2, hrec, hshift, hsleeps]
    | connError m => rw [ho] at hretry; simp [retryable] at hretry
    | response status body =>
      have h429 : status = 429 := by
        rw [ho] at hretry; simpa [retryable] using hretry
      subst h429
      simp only [if_pos rfl, hklt, if_true]
      rw [← hf2, hrec, hshift, hsleeps]

/-- C5 amended: `send_request` attempts the HTTP request up to
`max_retries + 1` times (an initial attempt plus up to `MAX_RETRIES = 5`
retries); only 429 responses and timeouts are retried, with sleeps starting
at `initial_backoff` (default 2 seconds) and doubling after each retry; any
other HTTP error, request exception or JSON decode failure stops the loop
at once; and a run of 429s followed by a success within the budget returns
the successful response (from a single successful attempt). -/
theorem send_request_retry_characterization
    (outcomes : Nat → HttpAttempt) (max_retries initial_backoff n : Nat)
    (hn : n ≤ max_retries)
    (hpre : ∀ j, j < n → retryable (outcomes j) = true)
    (hstop : retryable (outcomes n) = false ∨ n = max_retries) :
    send_request outcomes max_retries initial_backoff
      = (stopResult (outcomes n), n + 1,
         (List.range n).map (fun i => initial_backoff * 2 ^ i)) ∧
    n + 1 ≤ max_retries + 1 := by
  constructor
  · have h := sendLoop_characterize outcomes max_retries n 0 initial_backoff []
      (by omega) (fun j _ hj => hpre j (by omega)) (by simpa using hstop)
    simpa [send_request] using h
  · omega

/-- A 429 on the first attempt and a success on the second. -/
def oneRateLimitThenOk : Nat → HttpAttempt :=
  fun k => if k = 0 then .response 429 none else .response 200 (some "data")

/-- Witness for `send_request_retry_characterization`: one 429 then a 200,
with the default parameters. -/
theorem send_request_retry_characterization_witness :
    send_request oneRateLimitThenOk 5 2
      = (stopResult (oneRateLimitThenOk 1), 1 + 1,
         (List.range 1).map (fun i => 2 * 2 ^ i)) ∧ 1 + 1 ≤ 5 + 1 :=
  send_request_retry_characterization oneRateLimitThenOk 5 2 1 (by omega)
    (by intro j hj
        have hj0 : j = 0 := by omega
        subst hj0
        rfl)
    (Or.inl rfl)

/-! ## `APIUsageTracker` (src/backend/api_usage_tracker.py)

The tracker state carries the in-memory fields (`total_tokens`,
`usage_log`, `_persisted_count`) and the persisted JSON file (existence,
stored total, stored log).  A log entry is modelled by its agent name and
token count. -/

/-- The `tokens_used` argument of `track_usage`: an integer, a dictionary
(whose `total_tokens` field is read, defaulting to 0), or `None`. -/
inductive TokensArg where
  | int (n : Int)
  | dict (total_tokens : Int)
  | null

/-- The token count `track_usage` resolves from its argument. -/
def resolvedTokens : TokensArg → Int
  | .int n => n
  | .dict t => t
  | .null => 0

/-- The tracker's in-memory state plus its persistence file. -/
structure TrackerState where
  enabled : Bool
  total_tokens : Int
  usage_log : List (String × Int)
  persistedCount : Nat
  fileExists : Bool
  fileTotal : Int
  fileLog : List (String × Int)

/-- A freshly constructed `APIUsageTracker` (previous usage is not loaded:
the `_load_existing_usage` call in `__init__` is commented out). -/
def freshTracker (enabled : Bool) : TrackerState :=
  { enabled := enabled, total_tokens := 0, usage_log := [], persistedCount := 0
    fileExists := false, fileTotal := 0, fileLog := [] }

/-- `APIUsageTracker._persist_usage_locked`: merge the entries of
`usage_log` past `_persisted_count` into the file, then set
`_persisted_count = len(usage_log)`. -/
def persist_usage_locked (s : TrackerState) : TrackerState :=
  let existing_total := if s.fileExists then s.fileTotal else 0
  let existing_log := if s.fileExists then s.fileLog else []
  let new_entries := s.usage_log.drop s.persistedCount
  let new_tokens := (new_entries.map Prod.snd).sum
  { s with fileExists := true
           fileTotal := existing_total + new_tokens
           fileLog := existing_log ++ new_entries
           persistedCount := s.usage_log.length }

/-- `APIUsageTracker.track_usage`: no-op when disabled; raises `ValueError`
on a negative resolved token count; otherwise adds the entry to
`total_tokens` and `usage_log` and persists. -/
def track_usage (s : TrackerState) (agent_name : String) (tokens_used : TokensArg) :
    Except String TrackerState :=
  if !s.enabled then .ok s
  else
    let tokens_count := resolvedTokens tokens_used
    if tokens_count < 0 then .error "tokens_used must be a non-negative integer"
    else
      .ok (persist_usage_locked
        { s with total_tokens := s.total_tokens + tokens_count
                 usage_log := s.usage_log ++ [(agent_name, tokens_count)] })

/-- `APIUsageTracker.reset_tracker`: zero the in-memory statistics and
delete the persistence file.  `_persisted_count` is left untouched. -/
def reset_tracker (s : TrackerState) : TrackerState :=
  { s with total_tokens := 0
           usage_log := []
           fileExists := false, fileTotal := 0, fileLog := [] }

/-- The tracker state after `track_usage("tester", 5)` on a fresh enabled
tracker. -/
def trackerAfterOneTrack : TrackerState :=
  { enabled := true, total_tokens := 5, usage_log := [("tester", 5)], persistedCount := 1
    fileExists := true, fileTotal := 5, fileLog := [("tester", 5)] }

/-- C6 fails on the code: `reset_tracker` does not reset `_persisted_count`,
so after `track_usage("tester", 5); reset_tracker()` the count is 1 while
`usage_log` is empty — `_persisted_count ≤ len(usage_log)` is violated —
and the next tracked entry (`track_usage("coder", 3)`) is dropped from the
persisted file (`usage_log[1:]` of the one-entry log is empty) although it
is present in memory. -/
theorem reset_tracker_leaves_stale_persisted_count :
    track_usage (freshTracker true) "tester" (.int 5) = .ok trackerAfterOneTrack ∧
    (reset_tracker trackerAfterOneTrack).persistedCount = 1 ∧
    (reset_tracker trackerAfterOneTrack).usage_log.length = 0 ∧
    ¬ ((reset_tracker trackerAfterOneTrack).persistedCount
        ≤ (reset_tracker trackerAfterOneTrack).usage_log.length) ∧
    track_usage (reset_tracker trackerAfterOneTrack) "coder" (.int 3)
      = .ok { enabled := true, total_tokens := 3, usage_log := [("coder", 3)]
              persistedCount := 1, fileExists := true, fileTotal := 0, fileLog := [] } := by
  refine ⟨?_, rfl, rfl, by decide, ?_⟩
  · rfl
  · rfl

/-! ## Paths: `FileManager.join_path` / `write_file` and
`LocalServer.save_code_to_directory` (src/utils/file_manager.py,
src/server/local_server.py)

POSIX path strings are the environment model: a path is split on `/` into
components and resolved by dropping `.` and letting `..` consume the
preceding component (underflowing `..` entries are kept, as
`os.path.normpath` does for relative paths). -/

/-- Splits a character list at a separator, keeping empty pieces (Python
`str.split(sep)`). -/
def splitAux (sep : Char) (cur : List Char) : List Char → List (List Char)
  | [] => [cur.reverse]
  | c :: cs =>
    if c == sep then cur.reverse :: splitAux sep [] cs
    else splitAux sep (c :: cur) cs

/-- Python `str.split(sep)` for a one-character separator. -/
def splitOnChar (sep : Char) (s : String) : List String :=
  (splitAux sep [] s.data).map (fun l => String.mk l)

/-- The non-empty `/`-separated components of a path string. -/
def splitPath (s : String) : List String :=
  ((splitAux '/' [] s.data).filter (fun l => l ≠ [])).map (fun l => String.mk l)

/-- `os.path.isabs`: the path starts with the separator. -/
def isAbs (s : String) : Bool :=
  match s.data with
  | c :: _ => c == '/'
  | [] => false

/-- Whether a path string already ends with the separator. -/
def endsWithSep (s : String) : Bool :=
  s.data.getLast? == some '/'

/-- `os.path.join(a, b)` (`FileManager.join_path` is exactly
`os.path.join`): an absolute second argument discards the first; otherwise
the two are glued with a single separator. -/
def join_path (a b : String) : String :=
  if isAbs b then b
  else if a = "" then b
  else if endsWithSep a then a ++ b
  else a ++ "/" ++ b

/-- One step of path resolution over a reversed accumulator: `.` is dropped,
`..` consumes the previous component (or accumulates when there is none),
anything else is pushed. -/
def normStep (acc : List String) (c : String) : List String :=
  if c = "." then acc
  else if c = ".." then
    match acc with
    | [] => [".."]
    | a :: rest => if a = ".." then c :: a :: rest else rest
  else c :: acc

/-- The resolved component list of a path string. -/
def resolveComps (s : String) : List String :=
  ((splitPath s).foldl normStep []).reverse

/-- The file named by `target` lies inside the directory `base`: same
absoluteness and the resolved components of `base` are a prefix of those of
`target`. -/
def insideDir (base target : String) : Prop :=
  isAbs target = isAbs base ∧ resolveComps base <+: resolveComps target

instance (base target : String) : Decidable (insideDir base target) := by
  unfold insideDir
  infer_instance

/-- Python `'\n'.join(...)` / `'\n'.join`-style joining. -/
def joinWith (sep : String) : List String → String
  | [] => ""
  | [x] => x
  | x :: y :: xs => x ++ sep ++ joinWith sep (y :: xs)

/-- `LocalServer.save_code_to_directory`: every file of the package is
written at `join_path(current_project_path, filename)` by
`FileManager.write_file`, which creates parent directories and writes
unconditionally — no filename validation happens anywhere on this path;
`requirements.txt` is appended when requirements are present.  The returned
list is the sequence of (path, content) writes performed. -/
def save_code_to_directory (current_project_path : String)
    (files : List (String × String)) (requirements : List String) :
    List (String × String) :=
  (files.map (fun fc => (join_path current_project_path fc.1, fc.2))) ++
    (if requirements.isEmpty then []
     else [(join_path current_project_path "requirements.txt",
            joinWith "\n" requirements)])

/-- C8 fails on the code: nothing rejects path traversal.  With the
project directory `./workspace/code_project`, the filename `../escape.py`
is written at `./workspace/code_project/../escape.py`, which resolves
outside the project directory, and the absolute filename `/tmp/evil.py` is
written at `/tmp/evil.py`, outside the workspace root altogether — both
writes happen, nothing is rejected. -/
theorem save_code_to_directory_traversal_escapes :
    save_code_to_directory (join_path "./workspace" "code_project")
        [("main.py", "A"), ("../escape.py", "B"), ("/tmp/evil.py", "C")] []
      = [("./workspace/code_project/main.py", "A"),
         ("./workspace/code_project/../escape.py", "B"),
         ("/tmp/evil.py", "C")] ∧
    insideDir (join_path "./workspace" "code_project")
      "./workspace/code_project/main.py" ∧
    ¬ insideDir (join_path "./workspace" "code_project")
        "./workspace/code_project/../escape.py" ∧
    ¬ insideDir "./workspace" "/tmp/evil.py" := by
  refine ⟨by decide, by decide, by decide, by decide⟩

theorem splitAux_append (sep : Char) (ys : List Char) :
    ∀ (xs cur : List Char),
      splitAux sep cur (xs ++ sep :: ys)
        = splitAux sep cur xs ++ splitAux sep [] ys := by
  intro xs
  induction xs with
  | nil =>
    intro cur
    simp [splitAux]
  | cons c cs ih =>
    intro cur
    by_cases hc : (c == sep) = true
    · simp only [List.cons_append, splitAux, hc, if_true, List.append_eq]
      try rw [ih []]
      try simp
    · rw [Bool.not_eq_true] at hc
      simp only [List.cons_append, splitAux, hc, Bool.false_eq_true, if_false,
        List.append_eq]
      exact ih (c :: cur)

theorem splitAux_no_sep (sep : Char) :
    ∀ (l cur : List Char), (l.contains sep) = false →
      splitAux sep cur l = [cur.reverse ++ l] := by
  intro l
  induction l with
  | nil => intro cur _; simp [splitAux]
  | cons c cs ih =>
    intro cur hl
    rw [List.contains_cons] at hl
    rcases Bool.or_eq_false_iff.mp hl with ⟨h1, hcs⟩
    have hc : (c == sep) = false := by
      rw [beq_eq_false_iff_ne] at h1 ⊢
      exact fun hcc => h1 hcc.symm
    simp only [splitAux, hc, Bool.false_eq_true, if_false]
    rw [ih (c :: cur) hcs]
    simp

theorem string_ne_empty_data {s : String} (h : s ≠ "") : s.data ≠ [] := by
  intro hd
  apply h
  cases s with
  | mk data => cases hd; rfl

/-- Splitting distributes over joining with a fresh separator. -/
theorem splitPath_append_sep (a b : String) :
    splitPath (a ++ "/" ++ b) = splitPath a ++ splitPath b := by
  unfold splitPath
  have hdata : (a ++ "/" ++ b).data = a.data ++ '/' :: b.data := by
    rw [String.data_append, String.data_append, List.append_assoc]
    rfl
  rw [hdata, splitAux_append '/' b.data a.data [], List.filter_append, List.map_append]

/-- A slash-free non-empty filename is a single path component. -/
theorem splitPath_single (fn : String) (hfn : fn ≠ "")
    (hns : (fn.data.contains '/') = false) : splitPath fn = [fn] := by
  unfold splitPath
  rw [splitAux_no_sep '/' fn.data [] hns]
  simp only [List.reverse_nil, List.nil_append]
  rw [List.filter_cons_of_pos (by simpa using string_ne_empty_data hfn)]
  simp

theorem string_data_ne_empty {s : String} (h : s.data ≠ []) : s ≠ "" := by
  intro hc
  subst hc
  exact h rfl

theorem isAbs_append_left (a b : String) (ha : a ≠ "") :
    isAbs (a ++ b) = isAbs a := by
  unfold isAbs
  rw [String.data_append]
  cases hd : a.data with
  | nil => exact absurd hd (string_ne_empty_data ha)
  | cons c cs => simp only [List.cons_append]

/-- C8 amended: `save_code_to_directory` performs one unvalidated write per
file at `os.path.join(project_path, filename)`; a plain filename (non-empty,
no slash, not `.` or `..`) does land inside the project directory, but
nothing is rejected — traversal and absolute filenames land outside (see
`save_code_to_directory_traversal_escapes`). -/
theorem save_code_to_directory_plain_names_confined
    (project : String) (files : List (String × String))
    (hproj : project ≠ "") (hsep : endsWithSep project = false)
    (fn : String) (habs : isAbs fn = false) (hns : (fn.data.contains '/') = false)
    (hfn : fn ≠ "") (hdot : fn ≠ ".") (hdd : fn ≠ "..") :
    save_code_to_directory project files []
      = files.map (fun fc => (join_path project fc.1, fc.2)) ∧
    insideDir project (join_path project fn) := by
  have hjoin : join_path project fn = project ++ "/" ++ fn := by
    unfold join_path
    rw [habs, hsep]
    simp [hproj]
  refine ⟨?_, ?_, ?_⟩
  · unfold save_code_to_directory
    simp
  · rw [hjoin]
    have hps : (project ++ "/") ≠ "" := by
      apply string_data_ne_empty
      rw [String.data_append]
      simp
    calc isAbs ((project ++ "/") ++ fn) = isAbs (project ++ "/") :=
          isAbs_append_left (project ++ "/") fn hps
      _ = isAbs project := isAbs_append_left project "/" hproj
  · have hsplit : splitPath (project ++ "/" ++ fn) = splitPath project ++ [fn] := by
      rw [splitPath_append_sep, splitPath_single fn hfn hns]
    unfold resolveComps
    rw [hjoin, hsplit, List.foldl_append]
    simp only [List.foldl_cons, List.foldl_nil]
    have hstep : normStep ((splitPath project).foldl normStep []) fn
        = fn :: (splitPath project).foldl normStep [] := by
      unfold normStep
      rw [if_neg hdot, if_neg hdd]
    rw [hstep, List.reverse_cons]
    exact List.prefix_append _ _

/-- Witness for `save_code_to_directory_plain_names_confined` at the
project directory the orchestrator actually uses. -/
theorem save_code_to_directory_plain_names_confined_witness :
    save_code_to_directory "./workspace/code_project" [("main.py", "print(1)")] []
      = [("main.py", "print(1)")].map
          (fun fc => (join_path "./workspace/code_project" fc.1, fc.2)) ∧
    insideDir "./workspace/code_project" (join_path "./workspace/code_project" "main.py") :=
  save_code_to_directory_plain_names_confined "./workspace/code_project"
    [("main.py", "print(1)")] (by decide) (by decide) "main.py" (by decide) (by decide)
    (by decide) (by decide) (by decide)

/-! ## `AgentTester._validate_test_code` / `_remove_problematic_tests`
(src/agents/agent_tester.py)

The validator scans the generated test code line by line for blocking
patterns and returns warning strings of the form
`Line {i}: {message} - '{line.strip()}'`;  the filter then re-parses those
warnings, collects the line numbers of the qualifying patterns and walks the
file again removing lines.  The regexes `\.run\(\)` … are literal-substring
searches; `while\s+True:` is matched by an explicit scanner whose
whitespace class is space and tab (a line never contains a newline). -/

/-- Matches `while\s+KW:` at the head of a character list. -/
def whileKwAt (kw : List Char) (t : List Char) : Bool :=
  strPrefixOf "while".data t &&
    (let rest := t.drop 5
     let ws := rest.takeWhile (fun c => c == ' ' || c == '\t')
     !ws.isEmpty && strPrefixOf (kw ++ [':']) (rest.drop ws.length))

/-- `re.search` for the `while\s+KW:` patterns. -/
def searchWhileKw (kw : String) (line : String) : Bool :=
  (strTails line.data).any (fun t => whileKwAt kw.data t)

/-- The validator's problematic patterns with their messages
(`_validate_test_code`, first loop). -/
def problematicPatterns : List ((String → Bool) × String) :=
  [ (pyIn ".run()", "Test calls .run() method which may contain infinite loop"),
    (pyIn ".main_loop()", "Test calls .main_loop() method which likely blocks forever"),
    (pyIn ".start()", "Test calls .start() method which may run continuously"),
    (pyIn ".event_loop()", "Test calls .event_loop() method which may block"),
    (searchWhileKw "True", "Test contains 'while True' loop which may hang"),
    (searchWhileKw "running", "Test contains 'while running' loop which may hang") ]

/-- The pattern-scan warnings of `_validate_test_code`: each non-comment
line is tested against every pattern; a hit yields
`Line {i}: {message} - '{line.strip()}'`. -/
def patternWarnings (lines : List String) : List String :=
  (lines.enum.map (fun p =>
    let i := p.1 + 1
    let line := p.2
    if pyStartsWith (pyStrip line) "#" then []
    else
      problematicPatterns.filterMap (fun pm =>
        if pm.1 line then
          some ("Line " ++ toString i ++ ": " ++ pm.2 ++ " - '" ++ pyStrip line ++ "'")
        else none))).flatten

/-- Python `stripped.split('(')[0]`. -/
def upToParen (s : String) : String :=
  String.mk (s.data.takeWhile (fun c => !(c == '(')))

/-- Replaces every occurrence of a (non-empty) pattern, for Python
`str.replace`; the fuel (initially the list length) makes the recursion
structural and never runs out. -/
def replaceAllGo (pat rep : List Char) : Nat → List Char → List Char
  | _, [] => []
  | 0, l => l
  | fuel + 1, c :: cs =>
    if !pat.isEmpty && strPrefixOf pat (c :: cs) then
      rep ++ replaceAllGo pat rep (fuel - (pat.length - 1)) (cs.drop (pat.length - 1))
    else c :: replaceAllGo pat rep fuel cs

/-- Python `s.replace(pat, rep)`. -/
def pyReplace (s pat rep : String) : String :=
  String.mk (replaceAllGo pat.data rep.data s.data.length s.data)

/-- The test name the source extracts from a `def test_...` line:
`stripped.split('(')[0].replace('def ', '')`. -/
def testNameOf (stripped : String) : String :=
  pyReplace (upToParen stripped) "def " ""

/-- The mock-input warnings of `_validate_test_code` (second loop): a test
that uses `mock_input`/`monkeypatch` without a `@pytest.mark.timeout`
decorator is flagged when the next test starts and at end of file. -/
def mockInputWarnings (lines : List String) : List String :=
  let st := lines.foldl
    (fun (st : Bool × Bool × Bool × String × List String) line =>
      let stripped := pyStrip line
      let st1 :=
        if pyStartsWith stripped "def test_" then
          let ws := if st.1 && st.2.2.1 && !st.2.1 then
              st.2.2.2.2 ++ ["Test '" ++ st.2.2.2.1
                ++ "' uses mock input but lacks @pytest.mark.timeout decorator"]
            else st.2.2.2.2
          (true, false, false, testNameOf stripped, ws)
        else st
      let st2 :=
        if pyIn "@pytest.mark.timeout" stripped then
          (st1.1, true, st1.2.2.1, st1.2.2.2.1, st1.2.2.2.2)
        else st1
      if pyIn "mock_input" stripped || pyIn "monkeypatch" stripped then
        (st2.1, st2.2.1, true, st2.2.2.2.1, st2.2.2.2.2)
      else st2)
    (false, false, false, "", [])
  if st.1 && st.2.2.1 && !st.2.1 then
    st.2.2.2.2 ++ ["Test '" ++ st.2.2.2.1
      ++ "' uses mock input but lacks @pytest.mark.timeout decorator"]
  else st.2.2.2.2

/-- `AgentTester._validate_test_code`: pattern warnings then mock-input
warnings over the lines of the test code. -/
def validate_test_code (test_code : String) : List String :=
  let lines := splitOnChar '\n' test_code
  patternWarnings lines ++ mockInputWarnings lines

/-- The patterns whose warnings make `_remove_problematic_tests` mark a
line number for removal. -/
def removalFilterPatterns : List String :=
  [".run()", ".main_loop()", ".start()", "while True"]

/-- Digit run to number, for `re.search(r'Line (\d+):', warning)`. -/
def digitsToNat (ds : List Char) : Nat :=
  ds.foldl (fun acc c => acc * 10 + (c.toNat - 48)) 0

/-- Tries to read `Line (\d+):` at the head of a character list. -/
def lineNumAt (t : List Char) : Option Nat :=
  if strPrefixOf "Line ".data t then
    let rest := t.drop 5
    let ds := rest.takeWhile Char.isDigit
    if ds.isEmpty then none
    else if strPrefixOf [':'] (rest.drop ds.length) then some (digitsToNat ds)
    else none
  else none

/-- `re.search(r'Line (\d+):', warning)`: the leftmost match. -/
def findLineNum (w : String) : Option Nat :=
  ((strTails w.data).filterMap lineNumAt).head?

/-- The line numbers `_remove_problematic_tests` collects from the warnings
that mention one of the removal patterns. -/
def problematicLineNumbers (warnings : List String) : List Nat :=
  warnings.filterMap (fun w =>
    if removalFilterPatterns.any (fun p => pyIn p w) then findLineNum w else none)

/-- One iteration of the removal loop of `_remove_problematic_tests` over
`(i, line)`, on the state (`current_test_start`, `current_test_name`,
`skip_current_test`, `filtered_lines`). -/
def removeStep (probs : List Nat)
    (st : Option Nat × String × Bool × List String) (p : Nat × String) :
    Option Nat × String × Bool × List String :=
  let (cts, name, skip, filtered) := st
  let i := p.1
  let line := p.2
  let stripped := pyStrip line
  let isTestDef := pyStartsWith stripped "def test_"
  let (cts1, name1, skip1) :=
    if isTestDef then (some i, testNameOf stripped, false) else (cts, name, skip)
  let skip2 := if probs.contains i then true else skip1
  if cts1 = none then (cts1, name1, skip2, filtered ++ [line])
  else if !skip2 then (cts1, name1, skip2, filtered ++ [line])
  else if isTestDef || (pyStartsWith stripped "def " && !isTestDef) then
    if !isTestDef then (none, name1, skip2, filtered ++ [line])
    else
      let skip3 := probs.contains i
      if !skip3 then (some i, testNameOf stripped, skip3, filtered ++ [line])
      else (some i, testNameOf stripped, skip3, filtered)
  else (cts1, name1, skip2, filtered)

/-- `AgentTester._remove_problematic_tests`: collect the flagged line
numbers, then walk `enumerate(lines, 1)` with the removal loop and rejoin
the surviving lines. -/
def remove_problematic_tests (test_code : String) (warnings : List String) : String :=
  let lines := splitOnChar '\n' test_code
  let probs := problematicLineNumbers warnings
  let final := (lines.enum.map (fun p => (p.1 + 1, p.2))).foldl
    (removeStep probs) (none, "", false, [])
  joinWith "\n" final.2.2.2

/-- The filtering step of `generate_test_cases`: when validation finds
warnings, the problematic tests are filtered out before the test file is
written. -/
def tester_filter_step (test_code : String) : String :=
  let warnings := validate_test_code test_code
  if warnings.isEmpty then test_code
  else remove_problematic_tests test_code warnings

/-- A generated test file whose first test reaches a `while True:` loop. -/
def hangingTestCode : String :=
  "import pytest\n\ndef test_hang():\n    x = 1\n    while True:\n        pass\n\ndef test_ok():\n    assert 1 + 1 == 2"

/-- C9 fails on the code: the filter only starts skipping at the flagged
line itself, so the `def` line and the body lines before the blocking
pattern survive — the hanging test's `def test_hang():` and `    x = 1`
remain in the written file (only the `while True:` line and what follows it
are dropped), although the function's docstring and log say the whole test
function is removed. -/
theorem remove_problematic_tests_keeps_def_line :
    tester_filter_step hangingTestCode
      = "import pytest\n\ndef test_hang():\n    x = 1\ndef test_ok():\n    assert 1 + 1 == 2" ∧
    pyIn "def test_hang" (tester_filter_step hangingTestCode) = true ∧
    pyIn "while True" (tester_filter_step hangingTestCode) = false := by
  refine ⟨by decide, by decide, by decide⟩

end AICoder
